import Mathlib

/-!
Verification of the EuPlatesc payment-gateway client
(`src/index`-style client class plus `src/types.ts`).

The development shallowly embeds the client's signing, verification,
operation-builder and envelope-normalization logic:

* JavaScript strings become Lean `String`s (the fields signed by this
  client are ASCII, where JS UTF-16 `length` and Lean's codepoint
  `length` agree);
* `Record<string, string>` objects become association lists
  `List (String × String)` in insertion order (`Object.values`
  enumerates non-index string keys in insertion order);
* `node:crypto`'s `createHmac('md5', key)` is embedded as an executable
  MD5 / HMAC-MD5 over byte lists (`List Nat`, each byte `< 256`), with
  32-bit words represented as `Nat` reduced `% 2^32`;
* the effectful pieces (`fetch`, `Date`, `randomBytes`) are external
  collaborators: network replies are modelled by an explicit outcome
  value and timestamp/nonce are parameters of the builders.
-/

set_option linter.unusedVariables false
set_option maxRecDepth 100000

namespace EuPlatesc

/-! ## Bytes, 32-bit words, MD5, HMAC-MD5

Model of `node:crypto` `createHmac('md5', key).update(msg, 'utf8')
.digest('hex')`: the standard MD5 (RFC 1321) and HMAC (RFC 2104)
algorithms over byte lists. -/

/-- `2^32`, the word modulus for MD5 arithmetic. -/
def M32 : Nat := 4294967296

/-- Rotate the low 32 bits of `x` left by `s` (for `s ≤ 32`). -/
def rotl (x s : Nat) : Nat :=
  (((x % M32) <<< s) ||| ((x % M32) >>> (32 - s))) % M32

/-- The 64 MD5 sine-table constants `K[i] = ⌊2^32·|sin(i+1)|⌋`. -/
def md5K : List Nat :=
  [0xd76aa478, 0xe8c7b756, 0x242070db, 0xc1bdceee,
   0xf57c0faf, 0x4787c62a, 0xa8304613, 0xfd469501,
   0x698098d8, 0x8b44f7af, 0xffff5bb1, 0x895cd7be,
   0x6b901122, 0xfd987193, 0xa679438e, 0x49b40821,
   0xf61e2562, 0xc040b340, 0x265e5a51, 0xe9b6c7aa,
   0xd62f105d, 0x02441453, 0xd8a1e681, 0xe7d3fbc8,
   0x21e1cde6, 0xc33707d6, 0xf4d50d87, 0x455a14ed,
   0xa9e3e905, 0xfcefa3f8, 0x676f02d9, 0x8d2a4c8a,
   0xfffa3942, 0x8771f681, 0x6d9d6122, 0xfde5380c,
   0xa4beea44, 0x4bdecfa9, 0xf6bb4b60, 0xbebfbc70,
   0x289b7ec6, 0xeaa127fa, 0xd4ef3085, 0x04881d05,
   0xd9d4d039, 0xe6db99e5, 0x1fa27cf8, 0xc4ac5665,
   0xf4292244, 0x432aff97, 0xab9423a7, 0xfc93a039,
   0x655b59c3, 0x8f0ccc92, 0xffeff47d, 0x85845dd1,
   0x6fa87e4f, 0xfe2ce6e0, 0xa3014314, 0x4e0811a1,
   0xf7537e82, 0xbd3af235, 0x2ad7d2bb, 0xeb86d391]

/-- The per-round MD5 left-rotation amounts. -/
def md5S : List Nat :=
  [7, 12, 17, 22, 7, 12, 17, 22, 7, 12, 17, 22, 7, 12, 17, 22,
   5, 9, 14, 20, 5, 9, 14, 20, 5, 9, 14, 20, 5, 9, 14, 20,
   4, 11, 16, 23, 4, 11, 16, 23, 4, 11, 16, 23, 4, 11, 16, 23,
   6, 10, 15, 21, 6, 10, 15, 21, 6, 10, 15, 21, 6, 10, 15, 21]

/-- The MD5 round nonlinear function for round `i` on words `b c d`. -/
def md5F (i b c d : Nat) : Nat :=
  if i < 16 then (b &&& c) ||| ((b ^^^ 4294967295) &&& d)
  else if i < 32 then (d &&& b) ||| ((d ^^^ 4294967295) &&& c)
  else if i < 48 then b ^^^ c ^^^ d
  else c ^^^ (b ||| (d ^^^ 4294967295))

/-- The MD5 message-word index used in round `i`. -/
def md5G (i : Nat) : Nat :=
  if i < 16 then i
  else if i < 32 then (5 * i + 1) % 16
  else if i < 48 then (3 * i + 5) % 16
  else (7 * i) % 16

/-- Pack consecutive 4-byte groups into little-endian 32-bit words. -/
def bytesToWords : List Nat → List Nat
  | b0 :: b1 :: b2 :: b3 :: rest =>
    (b0 % 256 + (b1 % 256) * 256 + (b2 % 256) * 65536 + (b3 % 256) * 16777216)
      :: bytesToWords rest
  | _ => []

/-- One MD5 round: state `(a, b, c, d)` and round index `i`, over
message words `M`. -/
def md5Round (M : List Nat) (st : Nat × Nat × Nat × Nat) (i : Nat) :
    Nat × Nat × Nat × Nat :=
  let a := st.1
  let b := st.2.1
  let c := st.2.2.1
  let d := st.2.2.2
  let f := (md5F i b c d + a + md5K.getD i 0 + M.getD (md5G i) 0) % M32
  (d, (b + rotl f (md5S.getD i 0)) % M32, b, c)

/-- Process one 64-byte chunk, updating the MD5 state. -/
def md5Block (st : Nat × Nat × Nat × Nat) (chunk : List Nat) :
    Nat × Nat × Nat × Nat :=
  let M := bytesToWords chunk
  let r := (List.range 64).foldl (md5Round M) st
  ((st.1 + r.1) % M32, (st.2.1 + r.2.1) % M32,
   (st.2.2.1 + r.2.2.1) % M32, (st.2.2.2 + r.2.2.2) % M32)

/-- Split a byte list into consecutive 64-byte chunks (structural
recursion on a fuel argument so that the kernel can evaluate it; the
fuel is never exhausted when it starts at the list length). -/
def chunks64F : Nat → List Nat → List (List Nat)
  | _, [] => []
  | 0, _ => []
  | fuel + 1, a :: rest =>
    ((a :: rest).take 64) :: chunks64F fuel ((a :: rest).drop 64)

/-- Split a byte list into consecutive 64-byte chunks. -/
def chunks64 (l : List Nat) : List (List Nat) := chunks64F l.length l

/-- The low 8 bytes of `n`, little-endian (i.e. `n mod 2^64`). -/
def lenBytes8 (n : Nat) : List Nat :=
  [n % 256, n / 256 % 256, n / 65536 % 256, n / 16777216 % 256,
   n / 4294967296 % 256, n / 1099511627776 % 256,
   n / 281474976710656 % 256, n / 72057594037927936 % 256]

/-- MD5 padding: append `0x80`, zero-pad to 56 mod 64, then the
bit length as 8 little-endian bytes. -/
def md5Pad (msg : List Nat) : List Nat :=
  msg ++ 128 :: List.replicate ((120 - (msg.length + 1) % 64) % 64) 0
      ++ lenBytes8 (msg.length * 8)

/-- A 32-bit word as 4 little-endian bytes. -/
def wordLE (w : Nat) : List Nat :=
  [w % 256, w / 256 % 256, w / 65536 % 256, w / 16777216 % 256]

/-- MD5 digest of a byte list: 16 bytes. -/
def md5 (msg : List Nat) : List Nat :=
  let st := (chunks64 (md5Pad msg)).foldl md5Block
    (0x67452301, 0xefcdab89, 0x98badcfe, 0x10325476)
  wordLE st.1 ++ wordLE st.2.1 ++ wordLE st.2.2.1 ++ wordLE st.2.2.2

/-- HMAC-MD5 (RFC 2104) with block size 64. -/
def hmacMd5 (key msg : List Nat) : List Nat :=
  let k0 := if key.length > 64 then md5 key else key
  let kp := k0 ++ List.replicate (64 - k0.length) 0
  md5 ((kp.map (fun b => b ^^^ 92)) ++ md5 ((kp.map (fun b => b ^^^ 54)) ++ msg))

/-! ## Hex and UTF-8 codecs -/

/-- Value of one hex digit character, if any (`Buffer.from(·, 'hex')`
digit set). -/
def hexVal (c : Char) : Option Nat :=
  if '0' ≤ c ∧ c ≤ '9' then some (c.toNat - 48)
  else if 'a' ≤ c ∧ c ≤ 'f' then some (c.toNat - 87)
  else if 'A' ≤ c ∧ c ≤ 'F' then some (c.toNat - 55)
  else none

/-- Decode hex character pairs into bytes; like node's
`Buffer.from(s, 'hex')` this truncates at the first invalid pair
(and drops an odd trailing digit). -/
def hexDecodeChars : List Char → List Nat
  | c1 :: c2 :: rest =>
    match hexVal c1, hexVal c2 with
    | some h, some l => (16 * h + l) :: hexDecodeChars rest
    | _, _ => []
  | _ => []

/-- `Buffer.from(s, 'hex')` as a byte list. -/
def hexDecode (s : String) : List Nat := hexDecodeChars s.data

/-- Lowercase hex digits. -/
def hexDigitsLower : List Char := "0123456789abcdef".data

/-- Uppercase hex digits. -/
def hexDigitsUpper : List Char := "0123456789ABCDEF".data

/-- Render bytes as lowercase hex, like `.digest('hex')`. -/
def hexLower (bs : List Nat) : String :=
  String.mk (bs.foldr
    (fun b acc => hexDigitsLower.getD (b / 16 % 16) '0'
      :: hexDigitsLower.getD (b % 16) '0' :: acc) [])

/-- Render bytes directly as uppercase hex (used by the spec-side
signer definition). -/
def hexUpper (bs : List Nat) : String :=
  String.mk (bs.foldr
    (fun b acc => hexDigitsUpper.getD (b / 16 % 16) '0'
      :: hexDigitsUpper.getD (b % 16) '0' :: acc) [])

/-- JS `String.prototype.toUpperCase()`, restricted to the ASCII
mapping (all strings this client uppercases are ASCII hex digests). -/
def toUpperStr (s : String) : String := String.mk (s.data.map Char.toUpper)

/-- UTF-8 encoding of one character. -/
def utf8Char (c : Char) : List Nat :=
  let n := c.toNat
  if n < 128 then [n]
  else if n < 2048 then [192 + n / 64, 128 + n % 64]
  else if n < 65536 then [224 + n / 4096, 128 + n / 64 % 64, 128 + n % 64]
  else [240 + n / 262144, 128 + n / 4096 % 64, 128 + n / 64 % 64, 128 + n % 64]

/-- UTF-8 encoding of a string (`hmac.update(s, 'utf8')`). -/
def utf8Str (s : String) : List Nat :=
  s.data.foldl (fun acc c => acc ++ utf8Char c) []

/-! ## Decimal rendering of lengths

JS `value.length + value` converts the number `value.length` to its
decimal string. `decRepr` is that conversion for naturals. -/

/-- The decimal digit character for `m` (values `≥ 9` all map to `'9'`;
only applied to `m < 10`). -/
def decDigit (m : Nat) : Char :=
  match m with
  | 0 => '0' | 1 => '1' | 2 => '2' | 3 => '3' | 4 => '4'
  | 5 => '5' | 6 => '6' | 7 => '7' | 8 => '8' | _ => '9'

/-- Decimal digit list of `n`, structural recursion on a fuel
argument (never exhausted when the fuel starts at `n`). -/
def decDigitsF : Nat → Nat → List Char
  | 0, n => [decDigit (n % 10)]
  | fuel + 1, n =>
    if n < 10 then [decDigit n]
    else decDigitsF fuel (n / 10) ++ [decDigit (n % 10)]

/-- Decimal digit list of `n` (no leading zeros for `n > 0`). -/
def decDigits (n : Nat) : List Char := decDigitsF n n

/-- Decimal rendering of a natural (JS number-to-string for the
integer lengths used by the signer). -/
def decRepr (n : Nat) : String := String.mk (decDigits n)

/-! ## The canonical signer

`EuPlatescClient.generateHash` (src lines 148–159) and
`EuPlatescClient.generateUapiHash` (src lines 359–371). -/

/-- Client configuration (`EuPlatescConfig` in `src/types.ts`). -/
structure Config where
  merchantId : String
  secretKey : String
  testMode : Bool := false

/-- Web-service credentials (`WebServiceConfig` in `src/types.ts`). -/
structure WSConfig where
  userKey : String
  uapiKey : String

/-- The per-field fragment of the HMAC input:
`value.length > 0 ? value.length + value : '-'`. -/
def fieldFragment (value : String) : String :=
  if value.length > 0 then decRepr value.length ++ value else "-"

/-- The HMAC input string accumulated by the `for … of Object.values`
loop in `generateHash` / `generateUapiHash`. -/
def hmacInput (data : List (String × String)) : String :=
  data.foldl (fun acc p => acc ++ fieldFragment p.2) ""

/-- `EuPlatescClient.generateHash`: length-prefix-concatenate the
values, HMAC-MD5 with the hex-decoded secret key, render the digest
as hex and uppercase it. -/
def generateHash (secretKey : String) (data : List (String × String)) : String :=
  toUpperStr (hexLower (hmacMd5 (hexDecode secretKey) (utf8Str (hmacInput data))))

/-- `EuPlatescClient.generateUapiHash`: identical algorithm keyed by
the web-service `uapiKey`.  (The `!this.wsConfig` throw at the top of
the source method is unreachable: every caller already returned the
missing-configuration response before invoking it, so the model takes
the present configuration.) -/
def generateUapiHash (ws : WSConfig) (data : List (String × String)) : String :=
  toUpperStr (hexLower (hmacMd5 (hexDecode ws.uapiKey) (utf8Str (hmacInput data))))

/-- Signature as the SPEC words it (spec §4.1): concatenate, in set
order, decimal-length-prefix + value when the rendered value is
non-empty, or the single character `-` when it is empty; HMAC-MD5 the
concatenation keyed by the hex-decoded key; render the digest as
upper-case hexadecimal. -/
def specSign (fields : List (String × String)) (key : String) : String :=
  hexUpper (hmacMd5 (hexDecode key)
    (utf8Str (String.join (fields.map (fun f =>
      if f.2 = "" then "-" else decRepr f.2.length ++ f.2)))))

/-! ## The response verifier

`EuPlatescClient.verifyResponse` (src lines 92–136).  The inbound
callback is a string-keyed map; JS destructuring yields `undefined`
for missing keys, and `generateHash` then raises a `TypeError` at
`value.length`, while a hash mismatch raises `EuPlatescError`.  Both
are modelled as the error side of `Except`. -/

/-- The typed status returned on successful verification
(`TransactionStatus` in `src/types.ts`, as populated by
`verifyResponse`; note it does not echo `merch_id`). -/
structure TransactionStatus where
  epId : String
  invoiceId : String
  amount : String
  currency : String
  status : String
  message : String
  approval : String
  timestamp : String
  nonce : String
  fpHash : String
deriving DecidableEq

/-- The two ways `verifyResponse` can throw: the explicit
`EuPlatescError('Invalid response signature')`, or the `TypeError`
raised inside `generateHash` when a destructured field is absent. -/
inductive VerifyError where
  | invalidSignature
  | missingField
deriving DecidableEq

/-- First-occurrence lookup in a string map (keys of a JS
`Record<string, string>` are unique, so first-match is the value). -/
def lookup (m : List (String × String)) (k : String) : Option String :=
  (m.find? (fun p => p.1 == k)).map Prod.snd

/-- The ordered ten-field set `verifyResponse` hashes, rebuilt from
the destructured values. -/
def verifyFields (a c i e m ac ms ap ts nc : String) : List (String × String) :=
  [("amount", a), ("curr", c), ("invoice_id", i), ("ep_id", e),
   ("merch_id", m), ("action", ac), ("message", ms), ("approval", ap),
   ("timestamp", ts), ("nonce", nc)]

/-- `EuPlatescClient.verifyResponse`. -/
def verifyResponse (cfg : Config) (responseData : List (String × String)) :
    Except VerifyError TransactionStatus :=
  match lookup responseData "amount", lookup responseData "curr",
      lookup responseData "invoice_id", lookup responseData "ep_id",
      lookup responseData "merch_id", lookup responseData "action",
      lookup responseData "message", lookup responseData "approval",
      lookup responseData "timestamp", lookup responseData "nonce" with
  | some a, some c, some i, some e, some m, some ac, some ms, some ap,
      some ts, some nc =>
    let calculatedHash := generateHash cfg.secretKey
      (verifyFields a c i e m ac ms ap ts nc)
    match lookup responseData "fp_hash" with
    | some f =>
      if calculatedHash = f then
        .ok ⟨e, i, a, c, ac, ms, ap, ts, nc, f⟩
      else
        .error .invalidSignature
    | none => .error .invalidSignature
  | _, _, _, _, _, _, _, _, _, _ => .error .missingField

/-! ## JSON values, the uniform result, and the envelope normalizer

`EuPlatescClient.makeWebServiceRequest` (src lines 373–418).  The
`fetch` transport is an external collaborator; its outcome (a thrown
transport/parse error, or an HTTP status with a parsed JSON object
body) is the explicit input of the normalizer.  The declared upstream
reply types (`WebServiceSuccessResponse | WebServiceErrorResponse`)
are all JSON objects, so the body is a string-keyed field list. -/

/-- A JSON value. -/
inductive JVal where
  | str : String → JVal
  | num : Int → JVal
  | bool : Bool → JVal
  | null : JVal
  | arr : List JVal → JVal
  | obj : List (String × JVal) → JVal

/-- The uniform result (`WebServiceResponse<T>` in `src/types.ts`):
`success` flag, optional `data` payload, optional `message`. -/
structure WSResponse where
  success : Bool
  data : Option JVal := none
  message : Option JVal := none

/-- Field lookup in a JSON object (`result.k`). -/
def getField (o : List (String × JVal)) (k : String) : Option JVal :=
  (o.find? (fun p => p.1 == k)).map Prod.snd

/-- JS `'k' in result` for a JSON object. -/
def hasField (o : List (String × JVal)) (k : String) : Bool :=
  (getField o k).isSome

/-- The outcome of the `fetch` + `response.json()` pair: either a
thrown error (transport failure or JSON parse failure; the message is
present when the thrown value is an `Error`), or an HTTP status with
the parsed JSON object body. -/
inductive FetchOutcome where
  | throwErr : Option String → FetchOutcome
  | resp : Nat → List (String × JVal) → FetchOutcome

/-- `EuPlatescClient.makeWebServiceRequest`, as a function of the
transport outcome.  `response.ok` is the fetch contract
`200 ≤ status ≤ 299`. -/
def makeWebServiceRequest (outcome : FetchOutcome) : WSResponse :=
  match outcome with
  | .throwErr m => ⟨false, none, some (.str (m.getD "Unknown error occurred"))⟩
  | .resp status body =>
    if ¬ (200 ≤ status ∧ status < 300) then
      ⟨false, none, some (.str ("HTTP error! status: " ++ toString status))⟩
    else
      match getField body "error" with
      | some e => ⟨false, none, some e⟩
      | none =>
        if hasField body "cards" then ⟨true, some (.obj body), none⟩
        else
          match getField body "success" with
          | none => ⟨true, some (.obj body), none⟩
          | some inner => ⟨true, some inner, none⟩

/-- The envelope normalizer as the SPEC words it (spec §4.3), five
rules applied in priority order: (1) transport failure or non-2xx
status → failure with a describing message; (2) reply with an `error`
field → failure, message = that field's value; (3) reply with the
`cards` marker → success, payload = reply as-is; (4) reply with no
`success` wrapper → success, payload = reply as-is; (5) reply with a
`success` wrapper → success, payload = the wrapper's inner value. -/
def specNormalize (outcome : FetchOutcome) : WSResponse :=
  match outcome with
  | .throwErr m => ⟨false, none, some (.str (m.getD "Unknown error occurred"))⟩
  | .resp status body =>
    if status < 200 ∨ 300 ≤ status then
      ⟨false, none, some (.str ("HTTP error! status: " ++ toString status))⟩
    else if (getField body "error").isSome then
      ⟨false, none, getField body "error"⟩
    else if hasField body "cards" then
      ⟨true, some (.obj body), none⟩
    else if ¬ hasField body "success" then
      ⟨true, some (.obj body), none⟩
    else
      ⟨true, getField body "success", none⟩

/-- JS optional chaining `v?.k` on an optional JSON value: a field
access that yields `undefined` (`none`) unless `v` is an object with
the field. -/
def optField (v : Option JVal) (k : String) : Option JVal :=
  match v with
  | some (.obj fs) => getField fs k
  | _ => none

/-- The refund/capture post-processing
`{...response, data: response.success && response.data?.success === '1'}`
(src lines 315–318 and 353–356): the payload becomes the boolean
strict-equality test of the nested success indicator against `'1'`,
short-circuited by the call's own success flag; all other fields of
the uniform result are spread through unchanged. -/
def booleanizeData (r : WSResponse) : WSResponse :=
  { r with data := some (.bool (r.success &&
      (match optField r.data "success" with
       | some (.str s) => s == "1"
       | _ => false))) }

/-! ## Operation builders

One definition per server-to-server operation of the client.  Each
takes the (optional) web-service configuration, the caller inputs, and
the generated `timestamp`/`nonce` (produced effectfully in the source
from `Date` and `randomBytes`), and either short-circuits with the
missing-configuration response or emits the signed form payload that
is handed to `makeWebServiceRequest`. -/

/-- What an operation does before any network traffic: answer
immediately (no network call), or send the given signed payload. -/
inductive OpAction where
  | respond : WSResponse → OpAction
  | request : List (String × String) → OpAction

/-- The signed payload of an action (`[]` when no call is made). -/
def opFields : OpAction → List (String × String)
  | .respond _ => []
  | .request fields => fields

/-- The fixed precondition-failure result returned by every
server-to-server operation when `wsConfig` is absent. -/
def wsMissingResp : WSResponse :=
  ⟨false, none, some (.str "WebService configuration required for this operation")⟩

/-- JS truthiness of an optional string (`undefined` and `''` are
falsy). -/
def truthyStr (o : Option String) : Bool :=
  match o with
  | some s => !(s == "")
  | none => false

/-- JS `o || ''` for an optional string: `undefined` and `''` both
yield `''`. -/
def orEmpty (o : Option String) : String :=
  match o with
  | some s => if s == "" then "" else s
  | none => ""

/-- Modelled from JS `Number.prototype.toFixed(2)` on a rational
amount: round to two decimals (half away from zero) and render with
exactly two fraction digits.  (The binary-floating-point rounding
noise of JS numbers is not modelled; no claim depends on the rendered
digits.) -/
def toFixed2 (q : Rat) : String :=
  let n : Int := if 0 ≤ q then (q * 100 + 1 / 2).floor else (q * 100 - 1 / 2).ceil
  let ip := n.natAbs / 100
  let fp := n.natAbs % 100
  (if n < 0 then "-" else "") ++ decRepr ip ++ "."
    ++ (if fp < 10 then "0" ++ decRepr fp else decRepr fp)

/-- JS truthiness of an optional number (`undefined` and `0` are
falsy). -/
def truthyNum (o : Option Rat) : Bool :=
  match o with
  | some q => !(q == 0)
  | none => false

/-- `CheckStatusRequest` in `src/types.ts`. -/
structure CheckStatusRequest where
  epid : Option String := none
  invoiceId : Option String := none

/-- `RecurringCancellationRequest` in `src/types.ts`. -/
structure RecurringCancellationRequest where
  epid : String
  reason : Option String := none

/-- `RefundRequest` in `src/types.ts`. -/
structure RefundRequest where
  epid : String
  amount : Rat
  reason : String

/-- `CaptureRequest` in `src/types.ts`. -/
structure CaptureRequest where
  epid : String
  amount : Option Rat := none

/-- `EuPlatescClient.checkStatus` (src lines 222–247), up to the
network call; signed with the primary key. -/
def checkStatus (cfg : Config) (ws : Option WSConfig)
    (request : CheckStatusRequest) (timestamp nonce : String) : OpAction :=
  match ws with
  | none => .respond wsMissingResp
  | some _ =>
    let data := [("method", "check_status"), ("mid", cfg.merchantId),
        ("timestamp", timestamp), ("nonce", nonce)]
      ++ (if truthyStr request.epid then [("epid", request.epid.getD "")] else [])
      ++ (if truthyStr request.invoiceId then
            [("invoice_id", request.invoiceId.getD "")] else [])
    .request (data ++ [("fp_hash", generateHash cfg.secretKey data)])

/-- `EuPlatescClient.cancelRecurring` (src lines 255–280), up to the
network call; signed with the uapi key.  An absent `reason` is
rendered by `request.reason || ''` as the empty string and stays in
the signed field set. -/
def cancelRecurring (cfg : Config) (ws : Option WSConfig)
    (request : RecurringCancellationRequest) (timestamp nonce : String) : OpAction :=
  match ws with
  | none => .respond wsMissingResp
  | some w =>
    let data := [("method", "cancel_recurring"), ("ukey", w.userKey),
        ("epid", request.epid), ("reason", orEmpty request.reason),
        ("timestamp", timestamp), ("nonce", nonce)]
    .request (data ++ [("fp_hash", generateUapiHash w data)])

/-- `EuPlatescClient.refund` (src lines 288–319), up to the network
call; signed with the uapi key.  (The post-processing of the reply is
`booleanizeData`.) -/
def refund (cfg : Config) (ws : Option WSConfig)
    (request : RefundRequest) (timestamp nonce : String) : OpAction :=
  match ws with
  | none => .respond wsMissingResp
  | some w =>
    let data := [("method", "refund"), ("ukey", w.userKey),
        ("epid", request.epid), ("amount", toFixed2 request.amount),
        ("reason", request.reason), ("timestamp", timestamp), ("nonce", nonce)]
    .request (data ++ [("fp_hash", generateUapiHash w data)])

/-- `EuPlatescClient.capture` (src lines 327–357), up to the network
call; signed with the uapi key.  The method name is `partial_capture`
only when `request.amount` is truthy, and only then is the rendered
amount included in the signed field set.  (The post-processing of the
reply is `booleanizeData`.) -/
def capture (cfg : Config) (ws : Option WSConfig)
    (request : CaptureRequest) (timestamp nonce : String) : OpAction :=
  match ws with
  | none => .respond wsMissingResp
  | some w =>
    let data := [("method", if truthyNum request.amount then "partial_capture"
          else "capture"),
        ("ukey", w.userKey), ("epid", request.epid)]
      ++ (if truthyNum request.amount then
            [("amount", toFixed2 (request.amount.getD 0))] else [])
      ++ [("timestamp", timestamp), ("nonce", nonce)]
    .request (data ++ [("fp_hash", generateUapiHash w data)])

/-- `EuPlatescClient.checkMerchantInfo` (src lines 425–448), up to the
network call; signed with the primary key. -/
def checkMerchantInfo (cfg : Config) (ws : Option WSConfig)
    (timestamp nonce : String) : OpAction :=
  match ws with
  | none => .respond wsMissingResp
  | some _ =>
    let data := [("method", "check_mid"), ("mid", cfg.merchantId),
        ("timestamp", timestamp), ("nonce", nonce)]
    .request (data ++ [("fp_hash", generateHash cfg.secretKey data)])

/-- `EuPlatescClient.getCardArt` (src lines 456–480), up to the
network call; signed with the uapi key. -/
def getCardArt (cfg : Config) (ws : Option WSConfig)
    (epid : String) (timestamp nonce : String) : OpAction :=
  match ws with
  | none => .respond wsMissingResp
  | some w =>
    let data := [("method", "cardart"), ("ukey", w.userKey),
        ("ep_id", epid), ("timestamp", timestamp), ("nonce", nonce)]
    .request (data ++ [("fp_hash", generateUapiHash w data)])

/-- `EuPlatescClient.getSavedCards` (src lines 488–512), up to the
network call; signed with the primary key. -/
def getSavedCards (cfg : Config) (ws : Option WSConfig)
    (c2pId : String) (timestamp nonce : String) : OpAction :=
  match ws with
  | none => .respond wsMissingResp
  | some _ =>
    let data := [("method", "c2p_cards"), ("mid", cfg.merchantId),
        ("c2p_id", c2pId), ("timestamp", timestamp), ("nonce", nonce)]
    .request (data ++ [("fp_hash", generateHash cfg.secretKey data)])

/-- `EuPlatescClient.getCapturedTotals` (src lines 520–550), up to the
network call; signed with the uapi key.  Absent `from`/`to` are
rendered by `|| ''` as empty strings and stay in the signed field
set. -/
def getCapturedTotals (cfg : Config) (ws : Option WSConfig)
    (mids : List String) (fromDate toDate : Option String)
    (timestamp nonce : String) : OpAction :=
  match ws with
  | none => .respond wsMissingResp
  | some w =>
    let data := [("method", "captured_total"), ("ukey", w.userKey),
        ("mids", String.intercalate "," mids),
        ("from", orEmpty fromDate), ("to", orEmpty toDate),
        ("timestamp", timestamp), ("nonce", nonce)]
    .request (data ++ [("fp_hash", generateUapiHash w data)])

/-- `EuPlatescClient.getInvoices` (src lines 558–587), up to the
network call; signed with the uapi key. -/
def getInvoices (cfg : Config) (ws : Option WSConfig)
    (fromDate toDate : Option String) (timestamp nonce : String) : OpAction :=
  match ws with
  | none => .respond wsMissingResp
  | some w =>
    let data := [("method", "invoices"), ("ukey", w.userKey),
        ("mid", cfg.merchantId), ("from", orEmpty fromDate),
        ("to", orEmpty toDate), ("timestamp", timestamp), ("nonce", nonce)]
    .request (data ++ [("fp_hash", generateUapiHash w data)])

/-- `EuPlatescClient.getInvoiceTransactions` (src lines 595–621), up
to the network call; signed with the uapi key. -/
def getInvoiceTransactions (cfg : Config) (ws : Option WSConfig)
    (invoiceNumber : String) (timestamp nonce : String) : OpAction :=
  match ws with
  | none => .respond wsMissingResp
  | some w =>
    let data := [("method", "invoice"), ("ukey", w.userKey),
        ("invoice", invoiceNumber), ("timestamp", timestamp), ("nonce", nonce)]
    .request (data ++ [("fp_hash", generateUapiHash w data)])

/-! ## Auxiliary definitions for the claims -/

/-- The C9 invariant of the uniform result, as a boolean predicate:
the `success` flag agrees with payload presence, and a failure carries
a message and no payload. -/
def envInvariantB (r : WSResponse) : Bool :=
  (r.success == r.data.isSome) && (r.success || (r.message.isSome && r.data.isNone))

/-- A ten-value assignment as the verifier's ordered field set. -/
def callbackFields (v : Fin 10 → String) : List (String × String) :=
  verifyFields (v 0) (v 1) (v 2) (v 3) (v 4) (v 5) (v 6) (v 7) (v 8) (v 9)

/-- A callback map: the ten verification fields plus a supplied
`fp_hash`. -/
def callbackData (v : Fin 10 → String) (fp : String) : List (String × String) :=
  callbackFields v ++ [("fp_hash", fp)]

/-- Length of the decimal rendering of a natural. -/
def decLen (n : Nat) : Nat :=
  if _h : n < 10 then 1 else decLen (n / 10) + 1
termination_by n
decreasing_by
  exact Nat.div_lt_self (by omega) (by omega)

/-- Pack a byte list into a natural, big-endian base 256. -/
def packBytes : List Nat → Nat
  | [] => 0
  | b :: t => b % 256 * 256 ^ t.length + packBytes t

/-- A concrete client configuration used for the concrete evaluations
in the claim theorems. -/
def exCfg : Config := ⟨"TESTMID", "00112233445566778899AABBCCDDEEFF", false⟩

/-- A concrete web-service configuration used for the concrete
evaluations in the claim theorems. -/
def exWs : WSConfig := ⟨"UKEY1", "FFEEDDCCBBAA99887766554433221100"⟩

/-- A ten-value assignment whose first field (the verifier's `amount`)
is `x` and whose other nine fields are the fixed value `v`. -/
def exVals (x : String) : Fin 10 → String :=
  fun j => if j.val = 0 then x else "v"

instance : Infinite String :=
  Infinite.of_injective (fun n : Nat => String.mk (List.replicate n 'a'))
    (by
      intro a b h
      have hl := congrArg String.length h
      simpa [String.length] using hl)

/-! ## Bridging lemmas for the signer -/

theorem length_pos_iff_ne_empty (s : String) : 0 < s.length ↔ s ≠ "" := by
  cases s with
  | mk l =>
    show 0 < l.length ↔ _
    rw [ne_eq, String.ext_iff]
    show _ ↔ ¬ (l = [])
    simp [List.length_pos]

theorem fieldFragment_eq_spec (v : String) :
    fieldFragment v = if v = "" then "-" else decRepr v.length ++ v := by
  unfold fieldFragment
  by_cases h : v = ""
  · subst h; simp
  · rw [if_neg h, if_pos ((length_pos_iff_ne_empty v).mpr h)]

theorem foldl_append_str (l : List String) (a : String) :
    l.foldl (· ++ ·) a = a ++ l.foldl (· ++ ·) "" := by
  induction l generalizing a with
  | nil => simp [List.foldl]
  | cons x t ih =>
    show t.foldl (· ++ ·) (a ++ x) = a ++ t.foldl (· ++ ·) ("" ++ x)
    rw [ih (a ++ x), ih ("" ++ x)]
    apply String.ext
    simp [String.data_append]

theorem join_cons (x : String) (t : List String) :
    String.join (x :: t) = x ++ String.join t := by
  show t.foldl (· ++ ·) ("" ++ x) = x ++ t.foldl (· ++ ·) ""
  rw [foldl_append_str t ("" ++ x)]
  apply String.ext
  simp [String.data_append]

theorem hmacInput_eq_join (data : List (String × String)) :
    hmacInput data
      = String.join (data.map (fun f =>
          if f.2 = "" then "-" else decRepr f.2.length ++ f.2)) := by
  unfold hmacInput
  have h1 : String.join (data.map (fun f =>
      if f.2 = "" then "-" else decRepr f.2.length ++ f.2))
      = String.join (data.map (fun p => fieldFragment p.2)) := by
    congr 1
    apply List.map_congr_left
    intro p _
    exact (fieldFragment_eq_spec p.2).symm
  rw [h1]
  show _ = (data.map (fun p => fieldFragment p.2)).foldl (· ++ ·) ""
  rw [List.foldl_map]

theorem hexDigit_toUpper :
    ∀ n, n < 16 →
      Char.toUpper (hexDigitsLower.getD n '0') = hexDigitsUpper.getD n '0' := by
  decide

theorem toUpperStr_hexLower (bs : List Nat) :
    toUpperStr (hexLower bs) = hexUpper bs := by
  unfold toUpperStr hexLower hexUpper
  apply String.ext
  show (bs.foldr _ []).map Char.toUpper = _
  induction bs with
  | nil => rfl
  | cons b t ih =>
    simp only [List.foldr, List.map]
    rw [ih, hexDigit_toUpper _ (Nat.mod_lt _ (by omega)),
        hexDigit_toUpper _ (Nat.mod_lt _ (by omega))]

/-! ## Injectivity of the canonical field encoding -/

theorem decDigitsF_congr : ∀ f1 : Nat, ∀ f2 n : Nat, n ≤ f1 → n ≤ f2 →
    decDigitsF f1 n = decDigitsF f2 n := by
  intro f1
  induction f1 with
  | zero =>
    intro f2 n h1 h2
    have hn : n = 0 := by omega
    subst hn
    cases f2 with
    | zero => rfl
    | succ f => simp [decDigitsF]
  | succ f ih =>
    intro f2 n h1 h2
    cases f2 with
    | zero =>
      have hn : n = 0 := by omega
      subst hn
      simp [decDigitsF]
    | succ g =>
      simp only [decDigitsF]
      by_cases h : n < 10
      · simp [h]
      · have hdiv : n / 10 < n := Nat.div_lt_self (by omega) (by norm_num)
        rw [if_neg h, if_neg h, ih g (n / 10) (by omega) (by omega)]

theorem decDigits_unfold (n : Nat) :
    decDigits n = if n < 10 then [decDigit n]
      else decDigits (n / 10) ++ [decDigit (n % 10)] := by
  cases n with
  | zero => simp [decDigits, decDigitsF, decDigit]
  | succ m =>
    show decDigitsF (m + 1) (m + 1) = _
    simp only [decDigitsF]
    by_cases h : m + 1 < 10
    · simp [h]
    · rw [if_neg h, if_neg h]
      have hdiv : (m + 1) / 10 < m + 1 := Nat.div_lt_self (by omega) (by norm_num)
      rw [decDigitsF_congr m ((m + 1) / 10) ((m + 1) / 10) (by omega) (le_refl _)]
      rfl

theorem decDigits_length (n : Nat) : (decDigits n).length = decLen n := by
  induction n using Nat.strong_induction_on with
  | _ n ih =>
    rw [decDigits_unfold]
    unfold decLen
    by_cases h : n < 10
    · simp [h]
    · simp only [if_neg h, dif_neg h, List.length_append, List.length_cons,
        List.length_nil]
      rw [ih (n / 10) (Nat.div_lt_self (by omega) (by norm_num))]

theorem decLen_pos (n : Nat) : 1 ≤ decLen n := by
  unfold decLen
  by_cases h : n < 10 <;> simp [h]

theorem decLen_mono : ∀ m n : Nat, n ≤ m → decLen n ≤ decLen m := by
  intro m
  induction m using Nat.strong_induction_on with
  | _ m ih =>
    intro n hnm
    by_cases hm : m < 10
    · have hn : n < 10 := by omega
      unfold decLen
      simp [hm, hn]
    · by_cases hn : n < 10
      · calc decLen n = 1 := by unfold decLen; simp [hn]
          _ ≤ decLen m := decLen_pos m
      · have h1 : decLen n = decLen (n / 10) + 1 := by
          conv_lhs => unfold decLen
          simp [hn]
        have h2 : decLen m = decLen (m / 10) + 1 := by
          conv_lhs => unfold decLen
          simp [hm]
        rw [h1, h2]
        have := ih (m / 10) (Nat.div_lt_self (by omega) (by omega)) (n / 10)
          (Nat.div_le_div_right hnm)
        omega

/-- Length of the per-field fragment. -/
theorem fieldFragment_length (v : String) :
    (fieldFragment v).length
      = if v = "" then 1 else decLen v.length + v.length := by
  rw [fieldFragment_eq_spec]
  by_cases h : v = ""
  · rw [if_pos h, if_pos h]
    decide
  · simp only [h, if_neg, if_false, String.length_append]
    rw [decRepr]
    show (decDigits v.length).length + v.length = _
    rw [decDigits_length]

/-- The per-field fragment is injective. -/
theorem fieldFragment_injective {v w : String}
    (h : fieldFragment v = fieldFragment w) : v = w := by
  by_cases hv : v = "" <;> by_cases hw : w = ""
  · rw [hv, hw]
  · exfalso
    have hl := congrArg String.length h
    rw [fieldFragment_length, fieldFragment_length, if_pos hv, if_neg hw] at hl
    have h1 := decLen_pos w.length
    have h2 : 0 < w.length := (length_pos_iff_ne_empty w).mpr hw
    omega
  · exfalso
    have hl := congrArg String.length h
    rw [fieldFragment_length, fieldFragment_length, if_neg hv, if_pos hw] at hl
    have h1 := decLen_pos v.length
    have h2 : 0 < v.length := (length_pos_iff_ne_empty v).mpr hv
    omega
  · rw [fieldFragment_eq_spec, if_neg hv, fieldFragment_eq_spec, if_neg hw] at h
    rcases Nat.lt_trichotomy v.length w.length with hlt | heq | hgt
    · exfalso
      have hl := congrArg String.length h
      rw [String.length_append, String.length_append] at hl
      have e1 : (decRepr v.length).length = decLen v.length := decDigits_length _
      have e2 : (decRepr w.length).length = decLen w.length := decDigits_length _
      have := decLen_mono w.length v.length (by omega)
      omega
    · have hd := congrArg String.data h
      rw [String.data_append, String.data_append] at hd
      have hpre : (decRepr v.length).data.length = (decRepr w.length).data.length := by
        show (decDigits v.length).length = (decDigits w.length).length
        rw [heq]
      exact String.ext (List.append_inj_right hd hpre)
    · exfalso
      have hl := congrArg String.length h
      rw [String.length_append, String.length_append] at hl
      have e1 : (decRepr v.length).length = decLen v.length := decDigits_length _
      have e2 : (decRepr w.length).length = decLen w.length := decDigits_length _
      have := decLen_mono v.length w.length (by omega)
      omega

theorem join_append (l1 l2 : List String) :
    String.join (l1 ++ l2) = String.join l1 ++ String.join l2 := by
  induction l1 with
  | nil =>
    apply String.ext
    simp [String.data_append]
  | cons x t ih =>
    rw [List.cons_append, join_cons, ih, join_cons]
    apply String.ext
    simp [String.data_append]

theorem hmacInput_append (l1 l2 : List (String × String)) :
    hmacInput (l1 ++ l2) = hmacInput l1 ++ hmacInput l2 := by
  rw [hmacInput_eq_join, hmacInput_eq_join, hmacInput_eq_join,
    List.map_append, join_append]

theorem hmacInput_cons (p : String × String) (l : List (String × String)) :
    hmacInput (p :: l) = fieldFragment p.2 ++ hmacInput l := by
  rw [hmacInput_eq_join, hmacInput_eq_join, List.map_cons, join_cons,
    fieldFragment_eq_spec]

/-- Changing the value of one field — same key, same surrounding
fields — changes the canonical HMAC input string (or the values were
equal). -/
theorem hmacInput_mutate (key x y : String) (pre post : List (String × String))
    (h : hmacInput (pre ++ (key, x) :: post) = hmacInput (pre ++ (key, y) :: post)) :
    x = y := by
  rw [hmacInput_append, hmacInput_append, hmacInput_cons, hmacInput_cons] at h
  have hd := congrArg String.data h
  simp only [String.data_append] at hd
  exact fieldFragment_injective (String.ext
    (List.append_cancel_right (List.append_cancel_left hd)))

/-- Changing the value in one slot of the verifier's ten-field set
changes the canonical HMAC input string (or the new value was the old
one). -/
theorem hmacInput_update_injective (v : Fin 10 → String) (j : Fin 10) (w : String)
    (h : hmacInput (callbackFields (Function.update v j w))
      = hmacInput (callbackFields v)) : w = v j := by
  fin_cases j <;>
    simp only [callbackFields, verifyFields, Function.update_apply, Fin.ext_iff,
      Fin.isValue, show ((0 : Fin 10) : Nat) = 0 from rfl,
      show ((1 : Fin 10) : Nat) = 1 from rfl,
      show ((2 : Fin 10) : Nat) = 2 from rfl,
      show ((3 : Fin 10) : Nat) = 3 from rfl,
      show ((4 : Fin 10) : Nat) = 4 from rfl,
      show ((5 : Fin 10) : Nat) = 5 from rfl,
      show ((6 : Fin 10) : Nat) = 6 from rfl,
      show ((7 : Fin 10) : Nat) = 7 from rfl,
      show ((8 : Fin 10) : Nat) = 8 from rfl,
      show ((9 : Fin 10) : Nat) = 9 from rfl] at h <;>
    simp at h
  case _ => exact hmacInput_mutate "amount" w (v 0) [] [("curr", v 1), ("invoice_id", v 2), ("ep_id", v 3), ("merch_id", v 4), ("action", v 5), ("message", v 6), ("approval", v 7), ("timestamp", v 8), ("nonce", v 9)] h
  case _ => exact hmacInput_mutate "curr" w (v 1) [("amount", v 0)] [("invoice_id", v 2), ("ep_id", v 3), ("merch_id", v 4), ("action", v 5), ("message", v 6), ("approval", v 7), ("timestamp", v 8), ("nonce", v 9)] h
  case _ => exact hmacInput_mutate "invoice_id" w (v 2) [("amount", v 0), ("curr", v 1)] [("ep_id", v 3), ("merch_id", v 4), ("action", v 5), ("message", v 6), ("approval", v 7), ("timestamp", v 8), ("nonce", v 9)] h
  case _ => exact hmacInput_mutate "ep_id" w (v 3) [("amount", v 0), ("curr", v 1), ("invoice_id", v 2)] [("merch_id", v 4), ("action", v 5), ("message", v 6), ("approval", v 7), ("timestamp", v 8), ("nonce", v 9)] h
  case _ => exact hmacInput_mutate "merch_id" w (v 4) [("amount", v 0), ("curr", v 1), ("invoice_id", v 2), ("ep_id", v 3)] [("action", v 5), ("message", v 6), ("approval", v 7), ("timestamp", v 8), ("nonce", v 9)] h
  case _ => exact hmacInput_mutate "action" w (v 5) [("amount", v 0), ("curr", v 1), ("invoice_id", v 2), ("ep_id", v 3), ("merch_id", v 4)] [("message", v 6), ("approval", v 7), ("timestamp", v 8), ("nonce", v 9)] h
  case _ => exact hmacInput_mutate "message" w (v 6) [("amount", v 0), ("curr", v 1), ("invoice_id", v 2), ("ep_id", v 3), ("merch_id", v 4), ("action", v 5)] [("approval", v 7), ("timestamp", v 8), ("nonce", v 9)] h
  case _ => exact hmacInput_mutate "approval" w (v 7) [("amount", v 0), ("curr", v 1), ("invoice_id", v 2), ("ep_id", v 3), ("merch_id", v 4), ("action", v 5), ("message", v 6)] [("timestamp", v 8), ("nonce", v 9)] h
  case _ => exact hmacInput_mutate "timestamp" w (v 8) [("amount", v 0), ("curr", v 1), ("invoice_id", v 2), ("ep_id", v 3), ("merch_id", v 4), ("action", v 5), ("message", v 6), ("approval", v 7)] [("nonce", v 9)] h
  case _ => exact hmacInput_mutate "nonce" w (v 9) [("amount", v 0), ("curr", v 1), ("invoice_id", v 2), ("ep_id", v 3), ("merch_id", v 4), ("action", v 5), ("message", v 6), ("approval", v 7), ("timestamp", v 8)] [] h

/-! ## Digest shape, packing, and the verification round trip -/

theorem md5_length (m : List Nat) : (md5 m).length = 16 := by
  simp [md5, wordLE]

theorem wordLE_lt (w : Nat) : ∀ b ∈ wordLE w, b < 256 := by
  intro b hb
  simp only [wordLE, List.mem_cons, List.not_mem_nil, or_false] at hb
  rcases hb with h | h | h | h <;> subst h <;> exact Nat.mod_lt _ (by omega)

theorem md5_lt (m : List Nat) : ∀ b ∈ md5 m, b < 256 := by
  intro b hb
  simp only [md5, List.mem_append, or_assoc] at hb
  rcases hb with h | h | h | h <;> exact wordLE_lt _ _ h

theorem hmacMd5_length (k m : List Nat) : (hmacMd5 k m).length = 16 :=
  md5_length _

theorem hmacMd5_lt (k m : List Nat) : ∀ b ∈ hmacMd5 k m, b < 256 :=
  md5_lt _

theorem packBytes_lt : ∀ l : List Nat, packBytes l < 256 ^ l.length
  | [] => by simp [packBytes]
  | b :: t => by
    have h1 : packBytes t < 256 ^ t.length := packBytes_lt t
    have h2 : b % 256 < 256 := Nat.mod_lt _ (by omega)
    simp only [packBytes, List.length_cons, pow_succ]
    calc b % 256 * 256 ^ t.length + packBytes t
        < (b % 256 + 1) * 256 ^ t.length := by nlinarith
      _ ≤ 256 * 256 ^ t.length := Nat.mul_le_mul_right _ (by omega)
      _ = 256 ^ t.length * 256 := by ring

theorem packBytes_inj : ∀ l1 l2 : List Nat, l1.length = l2.length →
    (∀ b ∈ l1, b < 256) → (∀ b ∈ l2, b < 256) →
    packBytes l1 = packBytes l2 → l1 = l2
  | [], [], _, _, _, _ => rfl
  | [], _ :: _, h, _, _, _ => by simp at h
  | _ :: _, [], h, _, _, _ => by simp at h
  | b1 :: t1, b2 :: t2, hlen, hb1, hb2, hp => by
    have hlt : t1.length = t2.length := by simpa using hlen
    simp only [packBytes, hlt] at hp
    have p1 : packBytes t1 < 256 ^ t2.length := hlt ▸ packBytes_lt t1
    have p2 : packBytes t2 < 256 ^ t2.length := packBytes_lt t2
    have hm1 : b1 % 256 = b1 := Nat.mod_eq_of_lt (hb1 b1 (by simp))
    have hm2 : b2 % 256 = b2 := Nat.mod_eq_of_lt (hb2 b2 (by simp))
    have hK : 0 < 256 ^ t2.length := by positivity
    have hb : b1 = b2 := by
      have e1 := congrArg (fun z => z / 256 ^ t2.length) hp
      simp only [Nat.mul_comm _ (256 ^ t2.length)] at e1
      rw [Nat.mul_add_div hK, Nat.mul_add_div hK,
        Nat.div_eq_of_lt p1, Nat.div_eq_of_lt p2] at e1
      simpa [hm1, hm2] using e1
    have ht : packBytes t1 = packBytes t2 := by
      rw [hb] at hp
      exact Nat.add_left_cancel (by linarith [hp] : b2 % 256 * 256 ^ t2.length
        + packBytes t1 = b2 % 256 * 256 ^ t2.length + packBytes t2)
    rw [hb, packBytes_inj t1 t2 hlt
      (fun b hbm => hb1 b (List.mem_cons_of_mem _ hbm))
      (fun b hbm => hb2 b (List.mem_cons_of_mem _ hbm)) ht]

/-- Successful round trip: signing the ten verification fields and
appending the result as `fp_hash` produces a callback map that
verifies to the corresponding typed status. -/
theorem verifyResponse_roundtrip (cfg : Config) (v : Fin 10 → String) :
    verifyResponse cfg
        (callbackData v (generateHash cfg.secretKey (callbackFields v)))
      = .ok ⟨v 3, v 2, v 0, v 1, v 5, v 6, v 7, v 8, v 9,
          generateHash cfg.secretKey (callbackFields v)⟩ := by
  unfold verifyResponse
  rw [show lookup (callbackData v (generateHash cfg.secretKey (callbackFields v)))
        "amount" = some (v 0) from rfl,
      show lookup (callbackData v (generateHash cfg.secretKey (callbackFields v)))
        "curr" = some (v 1) from rfl,
      show lookup (callbackData v (generateHash cfg.secretKey (callbackFields v)))
        "invoice_id" = some (v 2) from rfl,
      show lookup (callbackData v (generateHash cfg.secretKey (callbackFields v)))
        "ep_id" = some (v 3) from rfl,
      show lookup (callbackData v (generateHash cfg.secretKey (callbackFields v)))
        "merch_id" = some (v 4) from rfl,
      show lookup (callbackData v (generateHash cfg.secretKey (callbackFields v)))
        "action" = some (v 5) from rfl,
      show lookup (callbackData v (generateHash cfg.secretKey (callbackFields v)))
        "message" = some (v 6) from rfl,
      show lookup (callbackData v (generateHash cfg.secretKey (callbackFields v)))
        "approval" = some (v 7) from rfl,
      show lookup (callbackData v (generateHash cfg.secretKey (callbackFields v)))
        "timestamp" = some (v 8) from rfl,
      show lookup (callbackData v (generateHash cfg.secretKey (callbackFields v)))
        "nonce" = some (v 9) from rfl,
      show lookup (callbackData v (generateHash cfg.secretKey (callbackFields v)))
        "fp_hash" = some (generateHash cfg.secretKey (callbackFields v)) from rfl]
  simp only []
  rw [show verifyFields (v 0) (v 1) (v 2) (v 3) (v 4) (v 5) (v 6) (v 7) (v 8) (v 9)
      = callbackFields v from rfl, if_pos rfl]

/-- A mismatching `fp_hash` makes verification fail. -/
theorem verifyResponse_mismatch (cfg : Config) (v : Fin 10 → String) (fp : String)
    (hne : generateHash cfg.secretKey (callbackFields v) ≠ fp) :
    verifyResponse cfg (callbackData v fp) = .error .invalidSignature := by
  unfold verifyResponse
  rw [show lookup (callbackData v fp) "amount" = some (v 0) from rfl,
      show lookup (callbackData v fp) "curr" = some (v 1) from rfl,
      show lookup (callbackData v fp) "invoice_id" = some (v 2) from rfl,
      show lookup (callbackData v fp) "ep_id" = some (v 3) from rfl,
      show lookup (callbackData v fp) "merch_id" = some (v 4) from rfl,
      show lookup (callbackData v fp) "action" = some (v 5) from rfl,
      show lookup (callbackData v fp) "message" = some (v 6) from rfl,
      show lookup (callbackData v fp) "approval" = some (v 7) from rfl,
      show lookup (callbackData v fp) "timestamp" = some (v 8) from rfl,
      show lookup (callbackData v fp) "nonce" = some (v 9) from rfl,
      show lookup (callbackData v fp) "fp_hash" = some fp from rfl]
  simp only []
  rw [show verifyFields (v 0) (v 1) (v 2) (v 3) (v 4) (v 5) (v 6) (v 7) (v 8) (v 9)
      = callbackFields v from rfl, if_neg hne]

/-! ## Claim theorems -/

/-- C1: for every ordered field set and key, the signature produced by
`generateHash` (and by `generateUapiHash`, keyed by the web-service
`uapiKey`) equals the spec's formula: concatenate, in set order,
decimal-length-prefix + value for non-empty rendered values and the
single character `-` for empty ones, HMAC-MD5 the concatenation with
the hex-decoded key, and render the digest as upper-case hex. -/
theorem generateHash_eq_specSign :
    (∀ (key : String) (data : List (String × String)),
      generateHash key data = specSign data key) ∧
    (∀ (ws : WSConfig) (data : List (String × String)),
      generateUapiHash ws data = specSign data ws.uapiKey) := by
  constructor
  · intro key data
    unfold generateHash specSign
    rw [hmacInput_eq_join, toUpperStr_hexLower]
  · intro ws data
    unfold generateUapiHash specSign
    rw [hmacInput_eq_join, toUpperStr_hexLower]

/-- C2: `verifyResponse` returns a typed status exactly when the
callback map supplies the ten verification fields and its `fp_hash`
equals the hash recomputed (with the primary secret key) over exactly
the ordered ten-field subset; every mismatch — including a missing
field — is an error, never a value. -/
theorem verifyResponse_characterization (cfg : Config)
    (rd : List (String × String)) (t : TransactionStatus) :
    verifyResponse cfg rd = .ok t ↔
      ∃ m : String,
        lookup rd "amount" = some t.amount ∧
        lookup rd "curr" = some t.currency ∧
        lookup rd "invoice_id" = some t.invoiceId ∧
        lookup rd "ep_id" = some t.epId ∧
        lookup rd "merch_id" = some m ∧
        lookup rd "action" = some t.status ∧
        lookup rd "message" = some t.message ∧
        lookup rd "approval" = some t.approval ∧
        lookup rd "timestamp" = some t.timestamp ∧
        lookup rd "nonce" = some t.nonce ∧
        lookup rd "fp_hash" = some (generateHash cfg.secretKey
          (verifyFields t.amount t.currency t.invoiceId t.epId m
            t.status t.message t.approval t.timestamp t.nonce)) ∧
        t.fpHash = generateHash cfg.secretKey
          (verifyFields t.amount t.currency t.invoiceId t.epId m
            t.status t.message t.approval t.timestamp t.nonce) := by
  constructor
  · intro h
    unfold verifyResponse at h
    split at h
    case _ a c i e m ac ms ap ts nc hA hC hI hE hM hAc hMs hAp hTs hNc =>
      simp only at h
      split at h
      case _ f hF =>
        split at h
        case isTrue hEq =>
          obtain ⟨⟩ := h
          exact ⟨m, hA, hC, hI, hE, hM, hAc, hMs, hAp, hTs, hNc,
            hEq ▸ hF, hEq.symm⟩
        case isFalse => exact absurd h (by simp)
      case _ => exact absurd h (by simp)
    case _ => exact absurd h (by simp)
  · rintro ⟨m, hA, hC, hI, hE, hM, hAc, hMs, hAp, hTs, hNc, hF, hFp⟩
    unfold verifyResponse
    rw [hA, hC, hI, hE, hM, hAc, hMs, hAp, hTs, hNc]
    simp only [hF, if_pos rfl]
    cases t
    simp_all

/-- C3 counterexample: the mutation half of the round-trip claim is
false as stated.  The signer has finitely many possible outputs
(16 bytes), so by pigeonhole there are two distinct values `x ≠ y` of
the `amount` field (all other fields fixed) with identical
signatures; replacing `x` by `y` while keeping the old `fp_hash`
still verifies successfully. -/
theorem verify_mutation_counterexample :
    ∃ x y : String, (x == y) = false ∧
      (verifyResponse exCfg (callbackData (exVals y)
        (generateHash exCfg.secretKey (callbackFields (exVals x))))).isOk = true := by
  have hmap : ∀ s : String, packBytes (hmacMd5 (hexDecode exCfg.secretKey)
      (utf8Str (hmacInput (callbackFields (exVals s))))) < 256 ^ 16 := by
    intro s
    have h := packBytes_lt (hmacMd5 (hexDecode exCfg.secretKey)
      (utf8Str (hmacInput (callbackFields (exVals s)))))
    rwa [hmacMd5_length] at h
  obtain ⟨x, y, hxy, hfeq⟩ := Finite.exists_ne_map_eq_of_infinite
    (fun s : String => (⟨packBytes (hmacMd5 (hexDecode exCfg.secretKey)
      (utf8Str (hmacInput (callbackFields (exVals s))))), hmap s⟩ : Fin (256 ^ 16)))
  have hpack : packBytes (hmacMd5 (hexDecode exCfg.secretKey)
        (utf8Str (hmacInput (callbackFields (exVals x)))))
      = packBytes (hmacMd5 (hexDecode exCfg.secretKey)
        (utf8Str (hmacInput (callbackFields (exVals y))))) :=
    congrArg Fin.val hfeq
  have hbytes := packBytes_inj _ _
    (by rw [hmacMd5_length, hmacMd5_length])
    (hmacMd5_lt _ _) (hmacMd5_lt _ _) hpack
  have hhash : generateHash exCfg.secretKey (callbackFields (exVals x))
      = generateHash exCfg.secretKey (callbackFields (exVals y)) := by
    unfold generateHash
    rw [hbytes]
  refine ⟨x, y, beq_eq_false_iff_ne.mpr hxy, ?_⟩
  rw [hhash, verifyResponse_roundtrip]
  rfl

/-- C3 (amended): signing the verifier's ten fields and appending the
result as `fp_hash` yields a callback on which `verifyResponse`
succeeds; mutating any single field value always changes the signer's
canonical input string, and verification of the mutated callback
(with the old `fp_hash`) fails whenever HMAC-MD5 gives the mutated
input a different digest — hash collisions being the only exception,
and by pigeonhole they must exist. -/
theorem verify_roundtrip_and_mutation (cfg : Config) (v : Fin 10 → String)
    (j : Fin 10) (w : String) (hw : (w == v j) = false) :
    verifyResponse cfg
        (callbackData v (generateHash cfg.secretKey (callbackFields v)))
      = .ok ⟨v 3, v 2, v 0, v 1, v 5, v 6, v 7, v 8, v 9,
          generateHash cfg.secretKey (callbackFields v)⟩
    ∧ (hmacInput (callbackFields (Function.update v j w))
        == hmacInput (callbackFields v)) = false
    ∧ ∀ hne : generateHash cfg.secretKey (callbackFields (Function.update v j w))
          ≠ generateHash cfg.secretKey (callbackFields v),
        (verifyResponse cfg (callbackData (Function.update v j w)
          (generateHash cfg.secretKey (callbackFields v)))).isOk = false := by
  refine ⟨verifyResponse_roundtrip cfg v, ?_, ?_⟩
  · rw [beq_eq_false_iff_ne]
    intro hcontra
    exact absurd (hmacInput_update_injective v j w hcontra)
      (beq_eq_false_iff_ne.mp hw)
  · intro hne
    rw [verifyResponse_mismatch cfg (Function.update v j w) _ hne]
    rfl

/-- C3 witness: a concrete instantiation — signing with `amount`
`"1.00"` verifies; mutating `amount` to `"2.00"` changes the
canonical input, the digests differ concretely, and verification of
the mutated callback fails. -/
theorem verify_roundtrip_and_mutation_witness :
    verifyResponse exCfg (callbackData (exVals "1.00")
        (generateHash exCfg.secretKey (callbackFields (exVals "1.00"))))
      = .ok ⟨exVals "1.00" 3, exVals "1.00" 2, exVals "1.00" 0, exVals "1.00" 1,
          exVals "1.00" 5, exVals "1.00" 6, exVals "1.00" 7, exVals "1.00" 8,
          exVals "1.00" 9, generateHash exCfg.secretKey (callbackFields (exVals "1.00"))⟩
    ∧ (hmacInput (callbackFields (Function.update (exVals "1.00") 0 "2.00"))
        == hmacInput (callbackFields (exVals "1.00"))) = false
    ∧ (verifyResponse exCfg (callbackData (Function.update (exVals "1.00") 0 "2.00")
        (generateHash exCfg.secretKey (callbackFields (exVals "1.00"))))).isOk = false := by
  obtain ⟨h1, h2, h3⟩ :=
    verify_roundtrip_and_mutation exCfg (exVals "1.00") 0 "2.00" (by decide)
  exact ⟨h1, h2, h3 (by decide)⟩

/-- C4 counterexample: reordering does NOT always change the
signature.  The signer hashes only the rendered values, so swapping
two fields that carry the same value is a genuine reordering of the
field set that leaves the signature unchanged. -/
theorem reorder_same_signature :
    ([("b", "x"), ("a", "x")] : List (String × String)).Perm [("a", "x"), ("b", "x")]
    ∧ (([("b", "x"), ("a", "x")] : List (String × String))
        == [("a", "x"), ("b", "x")]) = false
    ∧ generateHash exCfg.secretKey [("b", "x"), ("a", "x")]
      = generateHash exCfg.secretKey [("a", "x"), ("b", "x")] :=
  ⟨List.Perm.swap ("a", "x") ("b", "x") [], by decide, rfl⟩

/-- C4 (amended): the signer is deterministic — it is a pure function
of the key and the ordered sequence of rendered values, so field sets
with equal value sequences (in particular, equal field sets) sign
identically — and reordering CAN change the signature: concretely,
swapping two fields with distinct values changes it. -/
theorem generateHash_value_sequence (key : String)
    (d d' : List (String × String)) (h : d.map Prod.snd = d'.map Prod.snd) :
    generateHash key d = generateHash key d'
    ∧ (generateHash exCfg.secretKey [("a", "x"), ("b", "y")]
        == generateHash exCfg.secretKey [("b", "y"), ("a", "x")]) = false := by
  constructor
  · have key1 : ∀ l : List (String × String), hmacInput l
        = (l.map Prod.snd).foldl (fun acc v => acc ++ fieldFragment v) "" := by
      intro l
      rw [List.foldl_map]
      rfl
    unfold generateHash
    rw [hmacInput_eq_join]
    rw [hmacInput_eq_join]
    rw [show (fun f : String × String =>
        if f.2 = "" then "-" else decRepr f.2.length ++ f.2)
      = (fun v : String => if v = "" then "-" else decRepr v.length ++ v)
        ∘ Prod.snd from rfl, ← List.map_map, ← List.map_map, h]
  · decide

/-- C4 witness: determinism applied at two concrete single-field sets
with equal value sequences, together with the concrete
order-sensitivity instance. -/
theorem generateHash_value_sequence_witness :
    generateHash exCfg.secretKey [("p", "1")]
      = generateHash exCfg.secretKey [("q", "1")]
    ∧ (generateHash exCfg.secretKey [("a", "x"), ("b", "y")]
        == generateHash exCfg.secretKey [("b", "y"), ("a", "x")]) = false :=
  generateHash_value_sequence exCfg.secretKey [("p", "1")] [("q", "1")] rfl

/-- C5 counterexample: `cancelRecurring` does NOT exclude an absent
optional input — an absent `reason` is rendered by `|| ''` as the
empty string, stays in the signed field set, and produces exactly the
same operation (same signed payload) as an explicitly empty reason:
omission and empty-string are the same signed state there. -/
theorem absent_reason_signed_as_empty :
    cancelRecurring exCfg (some exWs) ⟨"EP1", none⟩ "ts1" "n1"
      = cancelRecurring exCfg (some exWs) ⟨"EP1", some ""⟩ "ts1" "n1"
    ∧ ("reason", "") ∈ opFields (cancelRecurring exCfg (some exWs)
        ⟨"EP1", none⟩ "ts1" "n1") := by
  refine ⟨rfl, ?_⟩
  simp [cancelRecurring, opFields, orEmpty]

/-- C5 (amended): the canonical signer itself distinguishes an empty
value (signed as `-`) from an omitted field; builders that use
conditional spreads (e.g. `checkStatus`) exclude absent inputs from
the signed field set; but `cancelRecurring`'s `reason` and
`getCapturedTotals`' `from`/`to` render absent inputs as empty
strings, so for those fields omission and empty-string are the same
signed state. -/
theorem omission_vs_empty_states (cfg : Config) (w : WSConfig) :
    (∀ v : String,
      (hmacInput [("a", ""), ("b", v)] == hmacInput [("b", v)]) = false)
    ∧ (∀ (inv : Option String) (ts n : String),
        ((opFields (checkStatus cfg (some w) ⟨none, inv⟩ ts n)).map
          Prod.fst).contains "epid" = false)
    ∧ (∀ epid ts n : String,
        cancelRecurring cfg (some w) ⟨epid, none⟩ ts n
          = cancelRecurring cfg (some w) ⟨epid, some ""⟩ ts n
        ∧ ("reason", "") ∈ opFields (cancelRecurring cfg (some w) ⟨epid, none⟩ ts n))
    ∧ (∀ (mids : List String) (ts n : String),
        getCapturedTotals cfg (some w) mids none none ts n
          = getCapturedTotals cfg (some w) mids (some "") (some "") ts n
        ∧ ("from", "") ∈ opFields (getCapturedTotals cfg (some w) mids none none ts n)
        ∧ ("to", "") ∈ opFields (getCapturedTotals cfg (some w) mids none none ts n))
    ∧ (generateHash exCfg.secretKey [("a", ""), ("b", "x")]
        == generateHash exCfg.secretKey [("b", "x")]) = false := by
  refine ⟨?_, ?_, ?_, ?_, by decide⟩
  · intro v
    rw [beq_eq_false_iff_ne]
    intro hcontra
    have hl := congrArg String.length hcontra
    simp only [hmacInput_cons, String.length_append] at hl
    have h1 : (fieldFragment "").length = 1 := by decide
    omega
  · intro inv ts n
    cases inv with
    | none => rfl
    | some s =>
      by_cases hs : s = ""
      · subst hs
        rfl
      · unfold checkStatus opFields
        simp only [truthyStr, beq_eq_false_iff_ne.mpr hs, Bool.not_false,
          if_true, if_false]
        rfl
  · intro epid ts n
    refine ⟨rfl, ?_⟩
    simp [cancelRecurring, opFields, orEmpty]
  · intro mids ts n
    refine ⟨rfl, ?_, ?_⟩ <;> simp [getCapturedTotals, opFields, orEmpty]

/-- C6: the envelope normalizer implements exactly the spec's five
prioritized cases — transport failure / non-2xx, explicit `error`
field, `cards` marker, no `success` wrapper, `success` wrapper — in
that order. -/
theorem makeWebServiceRequest_eq_specNormalize (outcome : FetchOutcome) :
    makeWebServiceRequest outcome = specNormalize outcome := by
  cases outcome with
  | throwErr m => rfl
  | resp status body =>
    simp only [makeWebServiceRequest, specNormalize]
    by_cases hok : 200 ≤ status ∧ status < 300
    · rw [if_neg (not_not_intro hok),
        if_neg (show ¬ (status < 200 ∨ 300 ≤ status) by omega)]
      cases herr : getField body "error" with
      | some e => simp [herr]
      | none =>
        simp only [herr, Option.isSome_none, Bool.false_eq_true, if_false]
        by_cases hc : hasField body "cards"
        · simp [hc]
        · simp only [hc, Bool.false_eq_true, if_false]
          cases hs : getField body "success" with
          | some inner => simp [hs, hasField]
          | none => simp [hs, hasField]
    · rw [if_pos hok, if_pos (show status < 200 ∨ 300 ≤ status by omega)]

/-- C7: for the refund/capture post-processing, the returned payload
is the boolean `true` exactly when the call itself succeeded and the
reply's nested success indicator is the literal string `"1"`;
concretely, `{success: {success: "1"}}` at HTTP 200 gives success with
payload `true`, `{success: {success: "0"}}` gives success with
payload `false`, and `{error: "bad epid"}` gives a failure whose
message is `"bad epid"`. -/
theorem booleanize_payload_iff (outcome : FetchOutcome) :
    ((booleanizeData (makeWebServiceRequest outcome)).data = some (.bool true) ↔
      (makeWebServiceRequest outcome).success = true ∧
        optField (makeWebServiceRequest outcome).data "success" = some (.str "1"))
    ∧ booleanizeData (makeWebServiceRequest
        (.resp 200 [("success", .obj [("success", .str "1")])]))
      = ⟨true, some (.bool true), none⟩
    ∧ booleanizeData (makeWebServiceRequest
        (.resp 200 [("success", .obj [("success", .str "0")])]))
      = ⟨true, some (.bool false), none⟩
    ∧ booleanizeData (makeWebServiceRequest (.resp 200 [("error", .str "bad epid")]))
      = ⟨false, some (.bool false), some (.str "bad epid")⟩ := by
  refine ⟨?_, rfl, rfl, rfl⟩
  unfold booleanizeData
  constructor
  · intro h
    simp only [Option.some.injEq, JVal.bool.injEq, Bool.and_eq_true] at h
    obtain ⟨hs, hm⟩ := h
    refine ⟨hs, ?_⟩
    revert hm
    cases hopt : optField (makeWebServiceRequest outcome).data "success" with
    | none =>
      intro hm
      exact absurd hm (by simp)
    | some jv =>
      cases jv with
      | str s =>
        intro hm
        simp at hm
        rw [hm]
      | num n =>
        intro hm
        exact absurd hm (by simp)
      | bool b =>
        intro hm
        exact absurd hm (by simp)
      | null =>
        intro hm
        exact absurd hm (by simp)
      | arr l =>
        intro hm
        exact absurd hm (by simp)
      | obj o =>
        intro hm
        exact absurd hm (by simp)
  · rintro ⟨hs, hm⟩
    rw [hs, hm]
    rfl

/-- C8: every server-to-server operation, invoked without web-service
credentials, immediately responds with the fixed
missing-configuration failure (an `OpAction.respond`, i.e. no network
request is emitted). -/
theorem ws_ops_precondition :
    (∀ (cfg : Config) (req : CheckStatusRequest) (ts n : String),
      checkStatus cfg none req ts n = .respond wsMissingResp)
    ∧ (∀ (cfg : Config) (req : RecurringCancellationRequest) (ts n : String),
      cancelRecurring cfg none req ts n = .respond wsMissingResp)
    ∧ (∀ (cfg : Config) (req : RefundRequest) (ts n : String),
      refund cfg none req ts n = .respond wsMissingResp)
    ∧ (∀ (cfg : Config) (req : CaptureRequest) (ts n : String),
      capture cfg none req ts n = .respond wsMissingResp)
    ∧ (∀ (cfg : Config) (ts n : String),
      checkMerchantInfo cfg none ts n = .respond wsMissingResp)
    ∧ (∀ (cfg : Config) (epid ts n : String),
      getCardArt cfg none epid ts n = .respond wsMissingResp)
    ∧ (∀ (cfg : Config) (c2pId ts n : String),
      getSavedCards cfg none c2pId ts n = .respond wsMissingResp)
    ∧ (∀ (cfg : Config) (mids : List String) (f t : Option String) (ts n : String),
      getCapturedTotals cfg none mids f t ts n = .respond wsMissingResp)
    ∧ (∀ (cfg : Config) (f t : Option String) (ts n : String),
      getInvoices cfg none f t ts n = .respond wsMissingResp)
    ∧ (∀ (cfg : Config) (inv ts n : String),
      getInvoiceTransactions cfg none inv ts n = .respond wsMissingResp) :=
  ⟨fun _ _ _ _ => rfl, fun _ _ _ _ => rfl, fun _ _ _ _ => rfl,
   fun _ _ _ _ => rfl, fun _ _ _ => rfl, fun _ _ _ _ => rfl,
   fun _ _ _ _ => rfl, fun _ _ _ _ _ _ => rfl, fun _ _ _ _ _ => rfl,
   fun _ _ _ _ => rfl⟩

/-- C9 counterexample: a failed refund/capture violates the
payload/message exclusivity invariant — the post-processing attaches
the payload `false` to a failure result, which therefore carries both
a message and a payload while its success flag is `false`. -/
theorem refund_failure_has_payload :
    booleanizeData (makeWebServiceRequest (.resp 200 [("error", .str "x")]))
      = ⟨false, some (.bool false), some (.str "x")⟩ := rfl

/-- C9 (amended): every result produced by the envelope normalizer,
and the fixed precondition-failure response, satisfies the invariant
(success flag iff payload present; failures carry a message and no
payload); but the refund/capture boolean post-processing always
attaches a payload, so its results satisfy the invariant exactly when
the call succeeded — a failed refund/capture carries both a message
and the payload `false`. -/
theorem envelope_invariant (outcome : FetchOutcome) :
    envInvariantB (makeWebServiceRequest outcome) = true
    ∧ envInvariantB (booleanizeData (makeWebServiceRequest outcome))
      = (makeWebServiceRequest outcome).success
    ∧ envInvariantB wsMissingResp = true := by
  have hboolz : ∀ r : WSResponse, envInvariantB (booleanizeData r) = r.success := by
    intro r
    cases hr : r.success <;> simp [envInvariantB, booleanizeData, hr]
  refine ⟨?_, hboolz _, rfl⟩
  cases outcome with
  | throwErr m => rfl
  | resp status body =>
    simp only [makeWebServiceRequest]
    by_cases hok : 200 ≤ status ∧ status < 300
    · rw [if_neg (not_not_intro hok)]
      cases herr : getField body "error" with
      | some e => simp [herr, envInvariantB]
      | none =>
        simp only [herr]
        by_cases hc : hasField body "cards"
        · simp [hc, envInvariantB]
        · simp only [hc, Bool.false_eq_true, if_false]
          cases hs : getField body "success" with
          | some inner => simp [hs, envInvariantB]
          | none => simp [hs, envInvariantB]
    · rw [if_pos hok]
      rfl

/-- C10: a capture request with the explicit amount `0` takes the
full-capture path — the method field is `capture`, no `amount` field
is signed, and the emitted operation is identical to a capture with
no amount supplied at all (JS truthiness: `0` is falsy). -/
theorem capture_zero_amount (cfg : Config) (w : WSConfig) (epid ts n : String) :
    capture cfg (some w) ⟨epid, some 0⟩ ts n = capture cfg (some w) ⟨epid, none⟩ ts n
    ∧ (opFields (capture cfg (some w) ⟨epid, some 0⟩ ts n)).map Prod.fst
      = ["method", "ukey", "epid", "timestamp", "nonce", "fp_hash"]
    ∧ lookup (opFields (capture cfg (some w) ⟨epid, some 0⟩ ts n)) "method"
      = some "capture"
    ∧ ((opFields (capture cfg (some w) ⟨epid, some 0⟩ ts n)).map
        Prod.fst).contains "amount" = false := by
  have ht : truthyNum (some 0) = false := by decide
  unfold capture
  simp only [ht, truthyNum, Bool.false_eq_true, if_false]
  exact ⟨rfl, rfl, rfl, rfl⟩

end EuPlatesc

